import Mathlib

/-!
Verification of the Toast ETL backfill orchestrator.

Shallow embedding of `src/backfill/backfill_manager.py`,
`src/validators/business_calendar.py` and `src/utils/retry_utils.py`.
Python exceptions are modelled with `Except String`; collaborator calls
(SFTP extractor, transformer, BigQuery loader, validator) are parameters
of an `Env` record, since the spec treats them as external collaborators.
-/

namespace Toast

/-! ## Retry model (`src/utils/retry_utils.py`, `retry_with_backoff`)

A call of the wrapped function is modelled by a trace `op : Nat → Except E A`
giving the outcome of the invocation at each attempt index.  `retryable e`
models membership of the raised exception in the `exceptions` tuple of the
decorator (a non-member is not caught by the `except` clause and propagates).
The returned `Nat` counts how many times `op` was invoked.  The `Option A`
accounts for Python's implicit `return None` fall-through when the `for`
loop over `range(max_attempts)` runs zero iterations.  Sleeping and delay
computation have no observable effect on results and are not modelled. -/

def pyRetryGo {E A : Type} (op : Nat → Except E A) (retryable : E → Bool)
    (maxAttempts : Nat) : Nat → Except E (Option A) × Nat
  | attempt =>
    if _h : attempt < maxAttempts then
      match op attempt with
      | .ok a => (.ok (some a), attempt + 1)
      | .error e =>
        if retryable e then
          if attempt = maxAttempts - 1 then
            (.error e, attempt + 1)
          else
            pyRetryGo op retryable maxAttempts (attempt + 1)
        else
          (.error e, attempt + 1)
    else
      (.ok none, attempt)
  termination_by attempt => maxAttempts - attempt
  decreasing_by omega

def pyRetry {E A : Type} (op : Nat → Except E A) (retryable : E → Bool)
    (maxAttempts : Nat) : Except E (Option A) × Nat :=
  pyRetryGo op retryable maxAttempts 0

/-! ## Calendar arithmetic

`datetime.strptime(s, "%Y%m%d")`, comparison of `datetime` values and
`timedelta(days=1)` are modelled with a proleptic Gregorian calendar:
a `Date` record, a rata-die ordinal `Date.toOrd` (so that `d1 <= d2`
in Python is `d1.toOrd ≤ d2.toOrd` and `+ timedelta(days=1)` is
`nextDay`, which adds one to the ordinal). -/

def isLeapYear (y : Nat) : Bool :=
  (y % 4 = 0 && y % 100 != 0) || y % 400 = 0

def monthLength (leap : Bool) (m : Nat) : Nat :=
  match m with
  | 1 => 31
  | 2 => if leap then 29 else 28
  | 3 => 31
  | 4 => 30
  | 5 => 31
  | 6 => 30
  | 7 => 31
  | 8 => 31
  | 9 => 30
  | 10 => 31
  | 11 => 30
  | 12 => 31
  | _ => 0

def daysBeforeMonth (leap : Bool) : Nat → Nat
  | 0 => 0
  | m + 1 => daysBeforeMonth leap m + monthLength leap m

/-- Number of leap years among `1..y`. -/
def leapsUpTo (y : Nat) : Nat := y / 4 - y / 100 + y / 400

structure Date where
  year : Nat
  month : Nat
  day : Nat
deriving DecidableEq, Repr

/-- Rata-die style ordinal: day 1 is January 1 of year 1. -/
def Date.toOrd (d : Date) : Nat :=
  365 * (d.year - 1) + leapsUpTo (d.year - 1)
    + daysBeforeMonth (isLeapYear d.year) d.month + d.day

/-- Well-formedness of the calendar fields, without the upper year bound. -/
def Date.wf (d : Date) : Prop :=
  1 ≤ d.year ∧ 1 ≤ d.month ∧ d.month ≤ 12 ∧ 1 ≤ d.day
    ∧ d.day ≤ monthLength (isLeapYear d.year) d.month

instance (d : Date) : Decidable d.wf := by
  unfold Date.wf; infer_instance

/-- The valid range of Python `datetime` (`MINYEAR = 1`, `MAXYEAR = 9999`). -/
def Date.valid (d : Date) : Prop := d.wf ∧ d.year ≤ 9999

instance (d : Date) : Decidable d.valid := by
  unfold Date.valid; infer_instance

/-- The calendar successor on the proleptic Gregorian calendar, ignoring the
`datetime` year bound (it rolls `9999-12-31` into year `10000`).  This is
only a helper: the embedding of Python's `+ timedelta(days=1)` is
`addOneDay` below, which raises past `MAXYEAR`. -/
def nextDay (d : Date) : Date :=
  if d.day < monthLength (isLeapYear d.year) d.month then
    ⟨d.year, d.month, d.day + 1⟩
  else if d.month < 12 then
    ⟨d.year, d.month + 1, 1⟩
  else
    ⟨d.year + 1, 1, 1⟩

theorem isLeapYear_iff (y : Nat) :
    isLeapYear y = true ↔ ((y % 4 = 0 ∧ y % 100 ≠ 0) ∨ y % 400 = 0) := by
  simp [isLeapYear, Bool.and_eq_true, Bool.or_eq_true]

theorem leapsUpTo_succ (y : Nat) :
    leapsUpTo (y + 1) = leapsUpTo y + (if isLeapYear (y + 1) then 1 else 0) := by
  by_cases h : isLeapYear (y + 1) = true
  · rw [if_pos h]
    rw [isLeapYear_iff] at h
    unfold leapsUpTo
    omega
  · rw [if_neg h]
    rw [isLeapYear_iff] at h
    push_neg at h
    unfold leapsUpTo
    omega

theorem monthLength_pos (leap : Bool) {m : Nat} (h1 : 1 ≤ m) (h2 : m ≤ 12) :
    1 ≤ monthLength leap m := by
  interval_cases m <;> cases leap <;> decide

theorem daysBefore_add_len (leap : Bool) (m : Nat) :
    daysBeforeMonth leap (m + 1) = daysBeforeMonth leap m + monthLength leap m := rfl

theorem daysBefore_add_len_le (leap : Bool) {m : Nat} (h1 : 1 ≤ m) (h2 : m ≤ 12) :
    daysBeforeMonth leap m + monthLength leap m ≤ 365 + (if leap then 1 else 0) := by
  interval_cases m <;> cases leap <;> decide

/-- For a well-formed date, successor-day advances the ordinal by one. -/
theorem toOrd_nextDay {d : Date} (h : d.wf) :
    (nextDay d).toOrd = d.toOrd + 1 := by
  obtain ⟨y, m, dd⟩ := d
  obtain ⟨hy, hm1, hm2, hd1, hd2⟩ := h
  simp only at hy hm1 hm2 hd1 hd2
  unfold nextDay
  dsimp only
  by_cases hlt : dd < monthLength (isLeapYear y) m
  · rw [if_pos hlt]
    unfold Date.toOrd
    dsimp only
    omega
  · rw [if_neg hlt]
    have hde : dd = monthLength (isLeapYear y) m := by omega
    by_cases hm12 : m < 12
    · rw [if_pos hm12]
      unfold Date.toOrd
      dsimp only
      have hstep := daysBefore_add_len (isLeapYear y) m
      omega
    · rw [if_neg hm12]
      have hme : m = 12 := by omega
      subst hme
      show (365 * (y + 1 - 1) + leapsUpTo (y + 1 - 1)
          + daysBeforeMonth (isLeapYear (y + 1)) 1 + 1)
        = 365 * (y - 1) + leapsUpTo (y - 1)
          + daysBeforeMonth (isLeapYear y) 12 + dd + 1
      rw [show daysBeforeMonth (isLeapYear (y + 1)) 1 = 0 from by
        cases isLeapYear (y + 1) <;> rfl]
      rw [Nat.add_sub_cancel]
      have hls := leapsUpTo_succ (y - 1)
      rw [show y - 1 + 1 = y from by omega] at hls
      cases hc : isLeapYear y
      · rw [hc] at hde hls
        rw [show monthLength false 12 = 31 from rfl] at hde
        rw [show daysBeforeMonth false 12 = 334 from rfl]
        simp only [Bool.false_eq_true, if_false] at hls
        omega
      · rw [hc] at hde hls
        rw [show monthLength true 12 = 31 from rfl] at hde
        rw [show daysBeforeMonth true 12 = 335 from rfl]
        simp only [if_true] at hls
        omega

theorem nextDay_wf {d : Date} (h : d.wf) : (nextDay d).wf := by
  obtain ⟨y, m, dd⟩ := d
  obtain ⟨hy, hm1, hm2, hd1, hd2⟩ := h
  simp only at hy hm1 hm2 hd1 hd2
  unfold nextDay
  dsimp only
  by_cases hlt : dd < monthLength (isLeapYear y) m
  · rw [if_pos hlt]
    exact ⟨hy, hm1, hm2, by show 1 ≤ dd + 1; omega,
      by show dd + 1 ≤ monthLength (isLeapYear y) m; omega⟩
  · rw [if_neg hlt]
    by_cases hm12 : m < 12
    · rw [if_pos hm12]
      exact ⟨hy, by show 1 ≤ m + 1; omega, by show m + 1 ≤ 12; omega,
        Nat.le_refl 1,
        monthLength_pos _ (by show 1 ≤ m + 1; omega) (by show m + 1 ≤ 12; omega)⟩
    · rw [if_neg hm12]
      exact ⟨by show 1 ≤ y + 1; omega, Nat.le_refl 1, by show (1 : Nat) ≤ 12; omega,
        Nat.le_refl 1,
        monthLength_pos _ (Nat.le_refl 1) (by show (1 : Nat) ≤ 12; omega)⟩

theorem toOrd_year_bounds {d : Date} (h : d.wf) :
    365 * (d.year - 1) + leapsUpTo (d.year - 1) + 1 ≤ d.toOrd ∧
      d.toOrd ≤ 365 * d.year + leapsUpTo d.year := by
  obtain ⟨y, m, dd⟩ := d
  obtain ⟨hy, hm1, hm2, hd1, hd2⟩ := h
  simp only at hy hm1 hm2 hd1 hd2
  unfold Date.toOrd
  dsimp only
  constructor
  · omega
  · have hub := daysBefore_add_len_le (isLeapYear y) hm1 hm2
    have hls := leapsUpTo_succ (y - 1)
    rw [show y - 1 + 1 = y from by omega] at hls
    cases hc : isLeapYear y <;> rw [hc] at hub hls hd2 <;>
      simp only [Bool.false_eq_true, if_true, if_false] at hub hls <;> omega

theorem toOrd_lt_of_year_lt {d1 d2 : Date} (h1 : d1.wf) (h2 : d2.wf)
    (hy : d1.year < d2.year) : d1.toOrd < d2.toOrd := by
  have b1 := (toOrd_year_bounds h1).2
  have b2 := (toOrd_year_bounds h2).1
  unfold leapsUpTo at b1 b2
  omega

theorem year_le_of_toOrd_le {d1 d2 : Date} (h1 : d1.wf) (h2 : d2.wf)
    (ho : d1.toOrd ≤ d2.toOrd) : d1.year ≤ d2.year := by
  by_contra hgt
  exact absurd ho (Nat.not_le.mpr (toOrd_lt_of_year_lt h2 h1 (by omega)))

theorem daysBeforeMonth_mono (leap : Bool) {a b : Nat} (h : a ≤ b) :
    daysBeforeMonth leap a ≤ daysBeforeMonth leap b := by
  induction b with
  | zero =>
    have ha : a = 0 := by omega
    subst ha
    exact Nat.le_refl _
  | succ n ih =>
    by_cases han : a = n + 1
    · subst han; exact Nat.le_refl _
    · have h2 : a ≤ n := by omega
      exact Nat.le_trans (ih h2) (Nat.le_add_right _ _)

theorem toOrd_inj {d1 d2 : Date} (h1 : d1.wf) (h2 : d2.wf)
    (h : d1.toOrd = d2.toOrd) : d1 = d2 := by
  obtain ⟨y1, m1, dd1⟩ := d1
  obtain ⟨y2, m2, dd2⟩ := d2
  have hy : y1 = y2 := by
    by_contra hne
    rcases Nat.lt_or_ge y1 y2 with hlt | hge
    · exact absurd h (Nat.ne_of_lt (toOrd_lt_of_year_lt h1 h2 hlt))
    · have hgt : y2 < y1 := by omega
      exact absurd h.symm (Nat.ne_of_lt (toOrd_lt_of_year_lt h2 h1 hgt))
  subst hy
  obtain ⟨hy1, hm1a, hm1b, hd1a, hd1b⟩ := h1
  obtain ⟨hy2, hm2a, hm2b, hd2a, hd2b⟩ := h2
  simp only at hy1 hm1a hm1b hd1a hd1b hy2 hm2a hm2b hd2a hd2b
  unfold Date.toOrd at h
  simp only at h
  have hm : m1 = m2 := by
    by_contra hne
    rcases Nat.lt_or_ge m1 m2 with hlt | hge
    · have e1 : daysBeforeMonth (isLeapYear y1) m1
          + monthLength (isLeapYear y1) m1
          = daysBeforeMonth (isLeapYear y1) (m1 + 1) := rfl
      have e2 : daysBeforeMonth (isLeapYear y1) (m1 + 1)
          ≤ daysBeforeMonth (isLeapYear y1) m2 :=
        daysBeforeMonth_mono _ (by omega)
      omega
    · have hgt : m2 < m1 := by omega
      have e1 : daysBeforeMonth (isLeapYear y1) m2
          + monthLength (isLeapYear y1) m2
          = daysBeforeMonth (isLeapYear y1) (m2 + 1) := rfl
      have e2 : daysBeforeMonth (isLeapYear y1) (m2 + 1)
          ≤ daysBeforeMonth (isLeapYear y1) m1 :=
        daysBeforeMonth_mono _ (by omega)
      omega
  subst hm
  have hd : dd1 = dd2 := by omega
  rw [hd]

/-- `datetime.max` is `9999-12-31` (`MAXYEAR = 9999`). -/
def dateMax : Date := ⟨9999, 12, 31⟩

/-- `current + timedelta(days=1)` on `datetime` values: raises
`OverflowError` when the result's year would exceed `MAXYEAR = 9999`
(an `OverflowError` is not a `ValueError`, so `get_date_range`'s `except`
clause does not catch it). -/
def addOneDay (d : Date) : Except String Date :=
  if 9999 < (nextDay d).year then .error "OverflowError: date value out of range"
  else .ok (nextDay d)

theorem addOneDay_ok {cur : Date} (hwf : cur.wf)
    (hlt : cur.toOrd < dateMax.toOrd) :
    addOneDay cur = .ok (nextDay cur) := by
  have hy : cur.year ≤ 9999 :=
    year_le_of_toOrd_le hwf (by decide) (Nat.le_of_lt hlt)
  have hno : ¬ 9999 < (nextDay cur).year := by
    obtain ⟨y, m, dd⟩ := cur
    obtain ⟨h1, h2, h3, h4, h5⟩ := hwf
    simp only at h1 h2 h3 h4 h5 hy
    unfold nextDay
    dsimp only
    by_cases hdl : dd < monthLength (isLeapYear y) m
    · rw [if_pos hdl]
      show ¬ 9999 < y
      omega
    · rw [if_neg hdl]
      by_cases hm12 : m < 12
      · rw [if_pos hm12]
        show ¬ 9999 < y
        omega
      · rw [if_neg hm12]
        show ¬ 9999 < y + 1
        intro hgt
        have hye : y = 9999 := by omega
        have hml : monthLength (isLeapYear y) 12 = 31 := by
          cases isLeapYear y <;> rfl
        have hme : m = 12 := by omega
        have hde : dd = 31 := by
          rw [hme] at h5 hdl
          omega
        rw [hye, hme, hde] at hlt
        exact absurd hlt (by
          rw [show Date.toOrd ⟨9999, 12, 31⟩ = dateMax.toOrd from rfl]
          omega)
  unfold addOneDay
  rw [if_neg hno]

theorem addOneDay_max :
    addOneDay dateMax = .error "OverflowError: date value out of range" := rfl

/-! ## Date strings

`strftime("%Y%m%d")` / `strptime(s, "%Y%m%d")` for the `YYYYMMDD` keys and
`strftime("%Y-%m-%d")` for the `processing_date` column values. -/

def digitChar (n : Nat) : Char :=
  match n with
  | 0 => '0'
  | 1 => '1'
  | 2 => '2'
  | 3 => '3'
  | 4 => '4'
  | 5 => '5'
  | 6 => '6'
  | 7 => '7'
  | 8 => '8'
  | _ => '9'

def digitVal (c : Char) : Nat := c.toNat - 48

def formatList (d : Date) : List Char :=
  [digitChar (d.year / 1000), digitChar (d.year / 100 % 10),
   digitChar (d.year / 10 % 10), digitChar (d.year % 10),
   digitChar (d.month / 10), digitChar (d.month % 10),
   digitChar (d.day / 10), digitChar (d.day % 10)]

def formatYYYYMMDD (d : Date) : String := ⟨formatList d⟩

/-- `strftime("%Y-%m-%d")`, as used for `processing_date` values. -/
def formatDashed (d : Date) : String :=
  ⟨[digitChar (d.year / 1000), digitChar (d.year / 100 % 10),
    digitChar (d.year / 10 % 10), digitChar (d.year % 10), Char.ofNat 45,
    digitChar (d.month / 10), digitChar (d.month % 10), Char.ofNat 45,
    digitChar (d.day / 10), digitChar (d.day % 10)]⟩

/-- `datetime.strptime(s, "%Y%m%d")`: exactly eight digits, month and day in
calendar range (`ValueError`, i.e. `none`, otherwise).  Python's `%Y` with an
eight-character input consumes four digits, and `datetime` enforces
`MINYEAR = 1`; `year ≤ 9999` is automatic from the four digits. -/
def parseDate8 : List Char → Option Date
  | [c1, c2, c3, c4, c5, c6, c7, c8] =>
    if c1.isDigit && c2.isDigit && c3.isDigit && c4.isDigit &&
        c5.isDigit && c6.isDigit && c7.isDigit && c8.isDigit then
      if (Date.mk (digitVal c1 * 1000 + digitVal c2 * 100
            + digitVal c3 * 10 + digitVal c4)
          (digitVal c5 * 10 + digitVal c6)
          (digitVal c7 * 10 + digitVal c8)).wf then
        some (Date.mk (digitVal c1 * 1000 + digitVal c2 * 100
            + digitVal c3 * 10 + digitVal c4)
          (digitVal c5 * 10 + digitVal c6)
          (digitVal c7 * 10 + digitVal c8))
      else none
    else none
  | _ => none

def parseYYYYMMDD (s : String) : Option Date := parseDate8 s.data

theorem digitChar_isDigit {n : Nat} (h : n ≤ 9) : (digitChar n).isDigit = true := by
  interval_cases n <;> decide

theorem isDigit_toNat {c : Char} (h : c.isDigit = true) :
    48 ≤ c.toNat ∧ c.toNat ≤ 57 := by
  unfold Char.isDigit at h
  simp only [Bool.and_eq_true, decide_eq_true_eq] at h
  exact ⟨h.1, h.2⟩

theorem digitVal_le {c : Char} (h : c.isDigit = true) : digitVal c ≤ 9 := by
  obtain ⟨h1, h2⟩ := isDigit_toNat h
  unfold digitVal
  omega

theorem digitVal_digitChar {n : Nat} (h : n ≤ 9) : digitVal (digitChar n) = n := by
  interval_cases n <;> decide

theorem parseDate8_wf {cs : List Char} {d : Date}
    (h : parseDate8 cs = some d) : d.wf ∧ d.year ≤ 9999 := by
  unfold parseDate8 at h
  split at h
  · split at h
    · split at h
      · injection h with hd
        subst hd
        rename_i c1 c2 c3 c4 c5 c6 c7 c8 hdig hwf
        simp only [Bool.and_eq_true] at hdig
        obtain ⟨⟨⟨⟨⟨⟨⟨h1, h2⟩, h3⟩, h4⟩, h5⟩, h6⟩, h7⟩, h8⟩ := hdig
        refine ⟨hwf, ?_⟩
        show digitVal c1 * 1000 + digitVal c2 * 100 + digitVal c3 * 10
            + digitVal c4 ≤ 9999
        have hv1 := digitVal_le h1
        have hv2 := digitVal_le h2
        have hv3 := digitVal_le h3
        have hv4 := digitVal_le h4
        omega
      · exact absurd h (by simp)
    · exact absurd h (by simp)
  · exact absurd h (by simp)

theorem parseYYYYMMDD_wf {s : String} {d : Date}
    (h : parseYYYYMMDD s = some d) : d.wf ∧ d.year ≤ 9999 :=
  parseDate8_wf h

theorem parseYYYYMMDD_format {d : Date} (hwf : d.wf) (hy2 : d.year ≤ 9999) :
    parseYYYYMMDD (formatYYYYMMDD d) = some d := by
  show parseDate8 (formatList d) = some d
  obtain ⟨y, m, dd⟩ := d
  obtain ⟨hy, hm1, hm2, hd1, hd2⟩ := hwf
  simp only at hy hm1 hm2 hd1 hd2 hy2
  have hml : monthLength (isLeapYear y) m ≤ 31 := by
    cases isLeapYear y <;> interval_cases m <;> decide
  have b1 : y / 1000 ≤ 9 := by omega
  have b2 : y / 100 % 10 ≤ 9 := by omega
  have b3 : y / 10 % 10 ≤ 9 := by omega
  have b4 : y % 10 ≤ 9 := by omega
  have b5 : m / 10 ≤ 9 := by omega
  have b6 : m % 10 ≤ 9 := by omega
  have b7 : dd / 10 ≤ 9 := by omega
  have b8 : dd % 10 ≤ 9 := by omega
  simp only [formatList, parseDate8]
  rw [if_pos (by
    simp only [Bool.and_eq_true]
    exact ⟨⟨⟨⟨⟨⟨⟨digitChar_isDigit b1, digitChar_isDigit b2⟩,
      digitChar_isDigit b3⟩, digitChar_isDigit b4⟩, digitChar_isDigit b5⟩,
      digitChar_isDigit b6⟩, digitChar_isDigit b7⟩, digitChar_isDigit b8⟩)]
  rw [digitVal_digitChar b1, digitVal_digitChar b2, digitVal_digitChar b3,
    digitVal_digitChar b4, digitVal_digitChar b5, digitVal_digitChar b6,
    digitVal_digitChar b7, digitVal_digitChar b8]
  rw [show y / 1000 * 1000 + y / 100 % 10 * 100 + y / 10 % 10 * 10 + y % 10 = y
    from by omega]
  rw [show m / 10 * 10 + m % 10 = m from by omega]
  rw [show dd / 10 * 10 + dd % 10 = dd from by omega]
  rw [if_pos ⟨hy, hm1, hm2, hd1, hd2⟩]

/-! ## `BackfillManager.get_date_range`

The source loop

```
current = start
while current <= end:
    dates.append(current.strftime("%Y%m%d"))
    current += timedelta(days=1)
```

is embedded with an explicit iteration bound (`fuel`), which the main
theorem instantiates with the exact number of iterations executed. -/

/-- The `while current <= end` body appends the current date and then runs
the increment; a raised `OverflowError` from the increment propagates,
discarding the accumulated list (`Except.bind`/`map` are the exception
plumbing). -/
def dateRangeLoop (e : Date) : Nat → Date → Except String (List Date)
  | 0, _ => .ok []
  | fuel + 1, cur =>
    if cur.toOrd ≤ e.toOrd then
      (addOneDay cur).bind (fun nxt =>
        (dateRangeLoop e fuel nxt).map (fun rest => cur :: rest))
    else .ok []

def get_date_range (start_date end_date : String) : Except String (List String) :=
  match parseYYYYMMDD start_date, parseYYYYMMDD end_date with
  | some s, some e =>
    match dateRangeLoop e (e.toOrd + 1 - s.toOrd) s with
    | .error err => .error err
    | .ok ds => .ok (ds.map formatYYYYMMDD)
  | _, _ => .error "Invalid date format"

/-- Pure unfolding of the loop: `n` consecutive days starting at `cur`. -/
def iterDays : Nat → Date → List Date
  | 0, _ => []
  | n + 1, cur => cur :: iterDays n (nextDay cur)

/-- Below the `MAXYEAR` boundary no increment overflows and the loop
returns the day sequence normally. -/
theorem dateRangeLoop_ok (e : Date) (hemax : e.toOrd < dateMax.toOrd) :
    ∀ (fuel : Nat) (cur : Date), cur.wf → fuel = e.toOrd + 1 - cur.toOrd →
      dateRangeLoop e fuel cur = .ok (iterDays fuel cur) := by
  intro fuel
  induction fuel with
  | zero => intro cur _ _; rfl
  | succ n ih =>
    intro cur hwf hfuel
    have hle : cur.toOrd ≤ e.toOrd := by omega
    show (if cur.toOrd ≤ e.toOrd then
        (addOneDay cur).bind (fun nxt =>
          (dateRangeLoop e n nxt).map (fun rest => cur :: rest))
      else .ok []) = _
    rw [if_pos hle, addOneDay_ok hwf (by omega)]
    show (dateRangeLoop e n (nextDay cur)).map (fun rest => cur :: rest) = _
    rw [ih (nextDay cur) (nextDay_wf hwf) (by rw [toOrd_nextDay hwf]; omega)]
    rfl

/-- A loop entered with `end = 9999-12-31` always reaches the final
increment, which raises. -/
theorem dateRangeLoop_overflow :
    ∀ (fuel : Nat) (cur : Date), cur.wf → cur.toOrd ≤ dateMax.toOrd →
      fuel = dateMax.toOrd + 1 - cur.toOrd →
      dateRangeLoop dateMax fuel cur
        = .error "OverflowError: date value out of range" := by
  intro fuel
  induction fuel with
  | zero =>
    intro cur _ hle hfuel
    exact absurd hfuel (by omega)
  | succ n ih =>
    intro cur hwf hle hfuel
    show (if cur.toOrd ≤ dateMax.toOrd then
        (addOneDay cur).bind (fun nxt =>
          (dateRangeLoop dateMax n nxt).map (fun rest => cur :: rest))
      else .ok []) = _
    rw [if_pos hle]
    rcases Nat.lt_or_ge cur.toOrd dateMax.toOrd with hlt | hge
    · rw [addOneDay_ok hwf hlt]
      show (dateRangeLoop dateMax n (nextDay cur)).map (fun rest => cur :: rest)
        = _
      rw [ih (nextDay cur) (nextDay_wf hwf)
        (by rw [toOrd_nextDay hwf]; omega)
        (by rw [toOrd_nextDay hwf]; omega)]
      rfl
    · have heq : cur = dateMax := toOrd_inj hwf (by decide) (by omega)
      subst heq
      rw [addOneDay_max]
      rfl

theorem iterDays_length (n : Nat) (cur : Date) : (iterDays n cur).length = n := by
  induction n generalizing cur with
  | zero => rfl
  | succ k ih => simp [iterDays, ih]

theorem iterDays_get (n : Nat) (cur : Date) (hwf : cur.wf) :
    ∀ i, i < n → ∃ d : Date, (iterDays n cur).get? i = some d ∧ d.wf ∧
      d.toOrd = cur.toOrd + i := by
  induction n generalizing cur with
  | zero => intro i hi; omega
  | succ k ih =>
    intro i hi
    match i with
    | 0 => exact ⟨cur, rfl, hwf, by omega⟩
    | j + 1 =>
      obtain ⟨d, hget, hdwf, hord⟩ := ih (nextDay cur) (nextDay_wf hwf) j (by omega)
      exact ⟨d, hget, hdwf, by rw [hord, toOrd_nextDay hwf]; omega⟩

theorem get_date_range_eq {s e : String} {ds de : Date}
    (hs : parseYYYYMMDD s = some ds) (he : parseYYYYMMDD e = some de) :
    get_date_range s e
      = match dateRangeLoop de (de.toOrd + 1 - ds.toOrd) ds with
        | .error err => .error err
        | .ok l => .ok (l.map formatYYYYMMDD) := by
  unfold get_date_range
  rw [hs, he]

/-- C6 (amended): over well-formed `YYYYMMDD` bounds whose end lies below
`datetime.max = 9999-12-31`, `get_date_range` returns the inclusive
ascending contiguous daily sequence (length `end - start + 1` ordinal days
when `start ≤ end`; the entry at index `i` parses back to the date
`start + i` days); when `end < start` it returns the empty list (also at
the boundary); on any malformed bound it raises `ValueError`.  But a range
that is entered and ends at `9999-12-31` raises `OverflowError` from the
final `+= timedelta(days=1)` — uncaught, since the function only catches
`ValueError` — instead of returning the sequence. -/
theorem claim_C6_get_date_range (s e : String) :
    (∀ ds de : Date, parseYYYYMMDD s = some ds → parseYYYYMMDD e = some de →
      (de.toOrd < dateMax.toOrd →
        ∃ l : List String, get_date_range s e = .ok l ∧
          l.length = de.toOrd + 1 - ds.toOrd ∧
          (de.toOrd < ds.toOrd → l = []) ∧
          (∀ i, i < l.length → ∃ d : Date, l.get? i = some (formatYYYYMMDD d) ∧
            parseYYYYMMDD (formatYYYYMMDD d) = some d ∧
            d.toOrd = ds.toOrd + i)) ∧
      (de.toOrd < ds.toOrd → get_date_range s e = .ok []) ∧
      (de = dateMax → ds.toOrd ≤ de.toOrd →
        get_date_range s e
          = .error "OverflowError: date value out of range")) ∧
    ((parseYYYYMMDD s = none ∨ parseYYYYMMDD e = none) →
      get_date_range s e = .error "Invalid date format") := by
  constructor
  · intro ds de hs he
    obtain ⟨hdswf, _⟩ := parseYYYYMMDD_wf hs
    obtain ⟨hdewf, hdey⟩ := parseYYYYMMDD_wf he
    refine ⟨?_, ?_, ?_⟩
    · intro hmax
      have hloop := dateRangeLoop_ok de hmax (de.toOrd + 1 - ds.toOrd) ds
        hdswf rfl
      refine ⟨(iterDays (de.toOrd + 1 - ds.toOrd) ds).map formatYYYYMMDD,
        ?_, ?_, ?_, ?_⟩
      · rw [get_date_range_eq hs he, hloop]
      · rw [List.length_map, iterDays_length]
      · intro hlt
        have h0 : de.toOrd + 1 - ds.toOrd = 0 := by omega
        rw [h0]
        rfl
      · intro i hi
        rw [List.length_map, iterDays_length] at hi
        obtain ⟨d, hget, hdwf, hord⟩ :=
          iterDays_get (de.toOrd + 1 - ds.toOrd) ds hdswf i hi
        have hdle : d.toOrd ≤ de.toOrd := by omega
        have hy9999 : d.year ≤ 9999 :=
          Nat.le_trans (year_le_of_toOrd_le hdwf hdewf hdle) hdey
        refine ⟨d, ?_, parseYYYYMMDD_format hdwf hy9999, hord⟩
        rw [List.get?_map, hget]
        rfl
    · intro hlt
      have h0 : de.toOrd + 1 - ds.toOrd = 0 := by omega
      rw [get_date_range_eq hs he, h0]
      rfl
    · intro hdemax hdsle
      subst hdemax
      have hloop := dateRangeLoop_overflow (dateMax.toOrd + 1 - ds.toOrd) ds
        hdswf hdsle rfl
      rw [get_date_range_eq hs he, hloop]
  · intro hnone
    unfold get_date_range
    rcases h1 : parseYYYYMMDD s with _ | ds <;>
      rcases h2 : parseYYYYMMDD e with _ | de <;> try rfl
    rw [h1, h2] at hnone
    rcases hnone with h | h <;> exact absurd h (by simp)

/-- C6 counterexample: both bounds are well-formed (`"99991231"` parses to
9999-12-31) and `start ≤ end`, so the claim asserts the one-day sequence
`["99991231"]` is returned; but after appending that date the loop executes
`current += timedelta(days=1)`, which overflows `datetime.MAXYEAR` and
raises `OverflowError` — not caught by the `except ValueError` clause — so
the call raises instead of returning. -/
theorem claim_C6_get_date_range_counterexample :
    get_date_range "99991231" "99991231"
      = .error "OverflowError: date value out of range" ∧
    ¬ get_date_range "99991231" "99991231" = .ok ["99991231"] := by
  have h : get_date_range "99991231" "99991231"
      = .error "OverflowError: date value out of range" := rfl
  refine ⟨h, ?_⟩
  intro hok
  rw [h] at hok
  exact Except.noConfusion hok

/-! ## `BusinessCalendar` (`src/validators/business_calendar.py`)

`total_sales` is a Python float used only in order comparisons against the
(integral) threshold; it is embedded as a rational.  The three constructor
defaults are `10`, `4`, `50.0`. -/

structure ThresholdConfig where
  min_records_threshold : Nat := 10
  min_files_threshold : Nat := 4
  min_sales_threshold : Rat := 50
deriving DecidableEq

/-- The four keys read (with `.get` defaults) from the analysis dict by
`is_likely_closure_date`; `_analyze_sftp_files` always sets all four. -/
structure FileAnalysis where
  total_records : Nat
  files_found : Nat
  total_sales : Rat
  has_meaningful_data : Bool
deriving DecidableEq

/-- `BusinessCalendar.is_likely_closure_date` (the `date` argument is used
only in log lines). -/
def is_likely_closure_date (cfg : ThresholdConfig) (date : String)
    (fa : FileAnalysis) : Bool × String :=
  if fa.files_found = 0 then (true, "no_files")
  else if fa.total_records < cfg.min_records_threshold then (true, "low_activity")
  else if fa.files_found < cfg.min_files_threshold then (true, "low_activity")
  else if 0 < fa.total_sales ∧ fa.total_sales < cfg.min_sales_threshold then
    (true, "no_sales")
  else if fa.has_meaningful_data = false then (true, "low_activity")
  else (false, "")

/-- The spec's `ClosureDecision.reason` enumeration. -/
inductive ClosureReason where
  | NoFiles
  | LowActivity
  | NoSales
deriving DecidableEq

def reasonKey : ClosureReason → String
  | .NoFiles => "no_files"
  | .LowActivity => "low_activity"
  | .NoSales => "no_sales"

/-- `classify` as worded in the spec (first match wins, rules 1-6). -/
def classifySpec (cfg : ThresholdConfig) (fa : FileAnalysis) :
    Option ClosureReason :=
  if fa.files_found = 0 then some .NoFiles
  else if fa.total_records < cfg.min_records_threshold then some .LowActivity
  else if fa.files_found < cfg.min_files_threshold then some .LowActivity
  else if 0 < fa.total_sales ∧ fa.total_sales < cfg.min_sales_threshold then
    some .NoSales
  else if fa.has_meaningful_data = false then some .LowActivity
  else none

/-- A Python scalar value as it appears in the closure `DataFrame` columns. -/
inductive PyVal where
  | s (v : String)
  | i (v : Int)
  | f (v : Rat)
  | b (v : Bool)
deriving DecidableEq

/-- One `DataFrame` row: column name to value. -/
abbrev Row := List (String × PyVal)

/-- A `DataFrame` is its list of rows (the closure frames have one row). -/
abbrev DF := List Row

def closure_reasons : List (String × String) :=
  [("low_activity", "Business closed - minimal activity detected"),
   ("no_files", "Business closed - no data files found"),
   ("no_sales", "Business closed - no sales activity"),
   ("maintenance", "Business closed for maintenance"),
   ("emergency", "Business closed due to emergency")]

/-- The seven one-row frames built by `generate_closure_records` once the
date parsed to `d`. -/
def closure_records_for (d : Date) (closure_reason : String) :
    List (String × DF) :=
  [
      ("all_items_report",
        [[("master_id", .s "CLOSURE_RECORD"), ("item_id", .s "CLOSURE"),
          ("menu_item", .s ("Business Closed - "
            ++ ((closure_reasons.lookup closure_reason).getD "Business closed"))),
          ("item_qty", .i 0), ("net_amount", .f 0),
          ("processing_date", .s (formatDashed d)),
          ("closure_indicator", .b true), ("closure_reason", .s closure_reason)]]),
      ("check_details",
        [[("check_id", .s "CLOSURE_RECORD"), ("customer", .s "Business Closed"),
          ("total", .f 0), ("opened_date", .s (formatDashed d)),
          ("processing_date", .s (formatDashed d)),
          ("closure_indicator", .b true), ("closure_reason", .s closure_reason)]]),
      ("cash_entries",
        [[("entry_id", .s "CLOSURE_RECORD"), ("action", .s "Business Closed"),
          ("amount", .f 0), ("created_date", .s (formatDashed d)),
          ("processing_date", .s (formatDashed d)),
          ("closure_indicator", .b true), ("closure_reason", .s closure_reason)]]),
      ("item_selection_details",
        [[("order_id", .s "CLOSURE_RECORD"), ("item_selection_id", .s "CLOSURE"),
          ("menu_item", .s ("Business Closed - "
            ++ ((closure_reasons.lookup closure_reason).getD "Business closed"))),
          ("quantity", .i 0), ("net_price", .f 0),
          ("processing_date", .s (formatDashed d)),
          ("closure_indicator", .b true), ("closure_reason", .s closure_reason)]]),
      ("kitchen_timings",
        [[("id", .s "CLOSURE_RECORD"), ("check_number", .s "CLOSURE"),
          ("station", .s "Business Closed"), ("fulfillment_time", .i 0),
          ("processing_date", .s (formatDashed d)),
          ("closure_indicator", .b true), ("closure_reason", .s closure_reason)]]),
      ("order_details",
        [[("order_id", .s "CLOSURE_RECORD"), ("location", .s "Business Closed"),
          ("total", .f 0), ("opened", .s (formatDashed d)),
          ("processing_date", .s (formatDashed d)),
          ("closure_indicator", .b true), ("closure_reason", .s closure_reason)]]),
      ("payment_details",
        [[("payment_id", .s "CLOSURE_RECORD"), ("order_id", .s "CLOSURE_RECORD"),
          ("amount", .f 0), ("processing_date", .s (formatDashed d)),
          ("closure_indicator", .b true), ("closure_reason", .s closure_reason)]])]

/-- `BusinessCalendar.generate_closure_records`; `none` models the
`ValueError` of `strptime` on a malformed date. -/
def generate_closure_records (date closure_reason : String) :
    Option (List (String × DF)) :=
  match parseYYYYMMDD date with
  | none => none
  | some d => some (closure_records_for d closure_reason)

/-- `BusinessCalendar.should_process_as_closure`.  A `ValueError` raised by
`generate_closure_records` propagates (`.error`). -/
def should_process_as_closure (cfg : ThresholdConfig) (date : String)
    (fa : FileAnalysis) : Except String (Bool × String × List (String × DF)) :=
  match is_likely_closure_date cfg date fa with
  | (true, reason) =>
    match generate_closure_records date reason with
    | some recs => .ok (true, reason, recs)
    | none => .error "ValueError: time data does not match format Y-m-d"
  | (false, _) => .ok (false, "", [])

/-- A value is "numeric and zero" when it is an integral or float column
holding zero; string/bool columns are not numeric business fields. -/
def numZero : PyVal → Prop
  | .i n => n = 0
  | .f q => q = 0
  | _ => True

/-- C3: the closure classification applies the six rules in the stated
first-match order (equivalently, it refines the spec's `classify`), and in
particular `files_found = 0` always yields reason `no_files`, whatever the
other fields and thresholds are. -/
theorem claim_C3_closure_decision_order (cfg : ThresholdConfig) (date : String)
    (fa : FileAnalysis) :
    (is_likely_closure_date cfg date fa
      = match classifySpec cfg fa with
        | some r => (true, reasonKey r)
        | none => (false, "")) ∧
    (fa.files_found = 0 →
      is_likely_closure_date cfg date fa = (true, "no_files")) := by
  constructor
  · by_cases h1 : fa.files_found = 0
    · simp [is_likely_closure_date, classifySpec, h1, reasonKey]
    · by_cases h2 : fa.total_records < cfg.min_records_threshold
      · simp [is_likely_closure_date, classifySpec, h1, h2, reasonKey]
      · by_cases h3 : fa.files_found < cfg.min_files_threshold
        · simp [is_likely_closure_date, classifySpec, h1, h2, h3, reasonKey]
        · by_cases h4 : 0 < fa.total_sales ∧ fa.total_sales < cfg.min_sales_threshold
          · simp [is_likely_closure_date, classifySpec, h1, h2, h3, h4, reasonKey]
          · by_cases h5 : fa.has_meaningful_data = false
            · simp [is_likely_closure_date, classifySpec, h1, h2, h3, h4, h5,
                reasonKey]
            · simp [is_likely_closure_date, classifySpec, h1, h2, h3, h4, h5,
                reasonKey]
  · intro h
    simp [is_likely_closure_date, h]

theorem claim_C3_closure_decision_order_witness :
    is_likely_closure_date {} "20241225"
      (FileAnalysis.mk 0 0 0 false) = (true, "no_files") :=
  (claim_C3_closure_decision_order {} "20241225"
    (FileAnalysis.mk 0 0 0 false)).2 rfl

/-- C5: for a valid date and any reason, `generate_closure_records` emits
exactly one row for each of the seven configured tables, and every row has
`closure_indicator = true`, `closure_reason` equal to the given reason, the
dash-formatted date in its `processing_date` field, and all numeric fields
zero. -/
theorem claim_C5_generate_closure_records (date closure_reason : String)
    (d : Date) (hd : parseYYYYMMDD date = some d) :
    ∃ recs : List (String × DF),
      generate_closure_records date closure_reason = some recs ∧
      recs.map Prod.fst = ["all_items_report", "check_details", "cash_entries",
        "item_selection_details", "kitchen_timings", "order_details",
        "payment_details"] ∧
      (∀ t ∈ recs, t.2.length = 1) ∧
      (∀ t ∈ recs, ∀ row ∈ t.2,
        row.lookup "closure_indicator" = some (.b true) ∧
        row.lookup "closure_reason" = some (.s closure_reason) ∧
        row.lookup "processing_date" = some (.s (formatDashed d)) ∧
        ∀ kv ∈ row, numZero kv.2) := by
  unfold generate_closure_records
  rw [hd]
  refine ⟨_, rfl, rfl, ?_, ?_⟩
  · intro t ht
    unfold closure_records_for at ht
    simp only [List.mem_cons, List.not_mem_nil, or_false] at ht
    rcases ht with rfl | rfl | rfl | rfl | rfl | rfl | rfl <;> rfl
  · intro t ht
    unfold closure_records_for at ht
    simp only [List.mem_cons, List.not_mem_nil, or_false] at ht
    rcases ht with rfl | rfl | rfl | rfl | rfl | rfl | rfl <;>
      · intro row hrow
        rw [List.mem_singleton] at hrow
        subst hrow
        refine ⟨rfl, rfl, rfl, ?_⟩
        simp [List.forall_mem_cons, numZero]

theorem claim_C5_generate_closure_records_witness :
    ∃ recs : List (String × DF),
      generate_closure_records "20241225" "no_files" = some recs ∧
      recs.map Prod.fst = ["all_items_report", "check_details", "cash_entries",
        "item_selection_details", "kitchen_timings", "order_details",
        "payment_details"] ∧
      (∀ t ∈ recs, t.2.length = 1) ∧
      (∀ t ∈ recs, ∀ row ∈ t.2,
        row.lookup "closure_indicator" = some (.b true) ∧
        row.lookup "closure_reason" = some (.s "no_files") ∧
        row.lookup "processing_date" = some (.s (formatDashed (Date.mk 2024 12 25))) ∧
        ∀ kv ∈ row, numZero kv.2) :=
  claim_C5_generate_closure_records "20241225" "no_files"
    (Date.mk 2024 12 25) (by decide)

theorem claim_C6_get_date_range_witness :
    (∃ l : List String, get_date_range "20240404" "20240406" = .ok l ∧
      l.length = 3) ∧
    get_date_range "2024-404" "20240406" = .error "Invalid date format" := by
  constructor
  · obtain ⟨l, hok, hlen, _, _⟩ :=
      ((claim_C6_get_date_range "20240404" "20240406").1
        (Date.mk 2024 4 4) (Date.mk 2024 4 6) (by decide) (by decide)).1
        (by decide)
    refine ⟨l, hok, ?_⟩
    rw [hlen]
    decide
  · exact (claim_C6_get_date_range "2024-404" "20240406").2 (Or.inl (by decide))

/-! ## C4: `retry_with_backoff` -/

def exceptIsError {E A : Type} : Except E A → Bool
  | .error _ => true
  | .ok _ => false

theorem pyRetryGo_succ {E A : Type} (op : Nat → Except E A) (retryable : E → Bool)
    (maxAttempts k : Nat) (err : Nat → E) (a : A)
    (hfail : ∀ i, i < k → op i = .error (err i))
    (hretry : ∀ i, i < k → retryable (err i) = true)
    (hsucc : op k = .ok a) (hkm : k < maxAttempts) :
    ∀ n j, j ≤ k → k - j = n →
      pyRetryGo op retryable maxAttempts j = (.ok (some a), k + 1) := by
  intro n
  induction n with
  | zero =>
    intro j hjk hn
    have hj : j = k := by omega
    subst hj
    unfold pyRetryGo
    rw [dif_pos (by omega), hsucc]
  | succ m ih =>
    intro j hjk hn
    have hjk2 : j < k := by omega
    unfold pyRetryGo
    rw [dif_pos (by omega), hfail j hjk2]
    show (if retryable (err j) = true then _ else _) = _
    rw [if_pos (hretry j hjk2), if_neg (by omega)]
    exact ih (j + 1) (by omega) (by omega)

theorem pyRetryGo_exhaust {E A : Type} (op : Nat → Except E A)
    (retryable : E → Bool) (maxAttempts k : Nat) (err : Nat → E)
    (hfail : ∀ i, i < k → op i = .error (err i))
    (hretry : ∀ i, i < k → retryable (err i) = true)
    (hm1 : 1 ≤ maxAttempts) (hmk : maxAttempts ≤ k) :
    ∀ n j, j ≤ maxAttempts - 1 → (maxAttempts - 1) - j = n →
      pyRetryGo op retryable maxAttempts j
        = (.error (err (maxAttempts - 1)), maxAttempts) := by
  intro n
  induction n with
  | zero =>
    intro j hj hn
    have hje : j = maxAttempts - 1 := by omega
    subst hje
    unfold pyRetryGo
    rw [dif_pos (by omega), hfail _ (by omega)]
    show (if retryable (err (maxAttempts - 1)) = true then _ else _) = _
    rw [if_pos (hretry _ (by omega)), if_pos rfl]
    show (Except.error (err (maxAttempts - 1)), maxAttempts - 1 + 1) = _
    rw [show maxAttempts - 1 + 1 = maxAttempts from by omega]
  | succ m ih =>
    intro j hj hn
    have hjlt : j < maxAttempts - 1 := by omega
    unfold pyRetryGo
    rw [dif_pos (by omega), hfail j (by omega)]
    show (if retryable (err j) = true then _ else _) = _
    rw [if_pos (hretry j (by omega)), if_neg (by omega)]
    exact ih (j + 1) (by omega) (by omega)

theorem pyRetryGo_nonretryable {E A : Type} (op : Nat → Except E A)
    (retryable : E → Bool) (maxAttempts j : Nat) (e : E)
    (hpre : ∀ i, i < j → ∃ ei, op i = .error ei ∧ retryable ei = true)
    (hj : op j = .error e) (hnr : retryable e = false) (hjm : j < maxAttempts) :
    ∀ n s, s ≤ j → j - s = n →
      pyRetryGo op retryable maxAttempts s = (.error e, j + 1) := by
  intro n
  induction n with
  | zero =>
    intro s hs hn
    have hse : s = j := by omega
    subst hse
    unfold pyRetryGo
    rw [dif_pos (by omega), hj]
    show (if retryable e = true then _ else _) = _
    rw [if_neg (by rw [hnr]; exact Bool.false_ne_true)]
  | succ m ih =>
    intro s hs hn
    have hslt : s < j := by omega
    obtain ⟨es, hes, hret⟩ := hpre s hslt
    unfold pyRetryGo
    rw [dif_pos (by omega), hes]
    show (if retryable es = true then _ else _) = _
    rw [if_pos hret, if_neg (by omega)]
    exact ih (s + 1) (by omega) (by omega)

/-- C4 (amended to `maxAttempts ≥ 1` for the exhaustion clause): for an
operation failing exactly `k` times with retryable errors and then
succeeding, the wrapper returns the success value after `k + 1` invocations
when `maxAttempts > k`; when `1 ≤ maxAttempts ≤ k` it invokes the operation
exactly `maxAttempts` times and re-raises the last error unchanged; and a
non-retryable error propagates at once, consuming no further attempts. -/
theorem claim_C4_retry_with_backoff {E A : Type} (op : Nat → Except E A)
    (retryable : E → Bool) (maxAttempts k : Nat) (err : Nat → E) (a : A)
    (hfail : ∀ i, i < k → op i = .error (err i))
    (hretry : ∀ i, i < k → retryable (err i) = true)
    (hsucc : op k = .ok a) :
    (k < maxAttempts →
      pyRetry op retryable maxAttempts = (.ok (some a), k + 1)) ∧
    (1 ≤ maxAttempts → maxAttempts ≤ k →
      pyRetry op retryable maxAttempts
        = (.error (err (maxAttempts - 1)), maxAttempts)) ∧
    (∀ (op2 : Nat → Except E A) (j : Nat) (e : E),
      (∀ i, i < j → ∃ ei, op2 i = .error ei ∧ retryable ei = true) →
      op2 j = .error e → retryable e = false → j < maxAttempts →
      pyRetry op2 retryable maxAttempts = (.error e, j + 1)) := by
  refine ⟨?_, ?_, ?_⟩
  · intro hkm
    exact pyRetryGo_succ op retryable maxAttempts k err a hfail hretry hsucc hkm
      k 0 (by omega) (by omega)
  · intro hm1 hmk
    exact pyRetryGo_exhaust op retryable maxAttempts k err hfail hretry hm1 hmk
      (maxAttempts - 1) 0 (by omega) (by omega)
  · intro op2 j e hpre hj hnr hjm
    exact pyRetryGo_nonretryable op2 retryable maxAttempts j e hpre hj hnr hjm
      j 0 (by omega) (by omega)

def c4op : Nat → Except String Nat := fun i => if i = 0 then .error "boom" else .ok 7

/-- C4 counterexample: `c4op` fails exactly once (retryably) then succeeds,
and `max_attempts = 0 ≤ 1`; the claim says the wrapper re-raises the last
error raised by the operation, but the Python `for attempt in range(0)` loop
body never runs, `last_exception` stays `None`, and the wrapper returns
`None` without raising (after the promised zero invocations). -/
theorem claim_C4_retry_with_backoff_counterexample :
    pyRetry c4op (fun _ => true) 0 = (.ok none, 0) ∧
    exceptIsError (pyRetry c4op (fun _ => true) 0).1 = false := by
  have h : pyRetry c4op (fun _ => true) 0 = (.ok none, 0) := by
    unfold pyRetry pyRetryGo
    rw [dif_neg (by omega)]
  exact ⟨h, by rw [h]; rfl⟩

theorem claim_C4_retry_with_backoff_witness :
    pyRetry c4op (fun _ => true) 3 = (.ok (some 7), 2) :=
  (claim_C4_retry_with_backoff c4op (fun _ => true) 3 1 (fun _ => "boom") 7
    (by intro i hi; have h0 : i = 0 := by omega
        subst h0; rfl)
    (by intro i hi; rfl)
    rfl).1 (by omega)

/-! ## C7: `get_processed_dates` / `filter_dates_to_process`

Python's `sorted` compares strings lexicographically by code point and its
output on strings is unique (the order is antisymmetric), so any correct
sort models it; we use `List.insertionSort` over an executable code-point
comparator. -/

def pyLeChars : List Char → List Char → Bool
  | [], _ => true
  | _ :: _, [] => false
  | a :: as, b :: bs =>
    if a.toNat < b.toNat then true
    else if b.toNat < a.toNat then false
    else pyLeChars as bs

def pyStrLe (a b : String) : Prop := pyLeChars a.data b.data = true

instance (a b : String) : Decidable (pyStrLe a b) := by
  unfold pyStrLe; infer_instance

theorem pyLeChars_total (as : List Char) :
    ∀ bs, pyLeChars as bs = true ∨ pyLeChars bs as = true := by
  induction as with
  | nil => intro bs; exact Or.inl rfl
  | cons a as ih =>
    intro bs
    cases bs with
    | nil => exact Or.inr rfl
    | cons b bs =>
      show (if a.toNat < b.toNat then true else if b.toNat < a.toNat then false
          else pyLeChars as bs) = true ∨
        (if b.toNat < a.toNat then true else if a.toNat < b.toNat then false
          else pyLeChars bs as) = true
      by_cases hab : a.toNat < b.toNat
      · left; rw [if_pos hab]
      · by_cases hba : b.toNat < a.toNat
        · right; rw [if_pos hba]
        · rw [if_neg hab, if_neg hba, if_neg hba, if_neg hab]
          exact ih bs

theorem pyLeChars_trans (as : List Char) :
    ∀ bs cs, pyLeChars as bs = true → pyLeChars bs cs = true →
      pyLeChars as cs = true := by
  induction as with
  | nil => intro bs cs _ _; rfl
  | cons a as ih =>
    intro bs cs h1 h2
    cases bs with
    | nil => exact absurd h1 (by simp [pyLeChars])
    | cons b bs =>
      cases cs with
      | nil => exact absurd h2 (by simp [pyLeChars])
      | cons c cs =>
        show (if a.toNat < c.toNat then true else if c.toNat < a.toNat then false
            else pyLeChars as cs) = true
        rw [show pyLeChars (a :: as) (b :: bs)
            = (if a.toNat < b.toNat then true else if b.toNat < a.toNat then false
              else pyLeChars as bs) from rfl] at h1
        rw [show pyLeChars (b :: bs) (c :: cs)
            = (if b.toNat < c.toNat then true else if c.toNat < b.toNat then false
              else pyLeChars bs cs) from rfl] at h2
        by_cases hab : a.toNat < b.toNat <;> by_cases hbc : b.toNat < c.toNat
        · rw [if_pos (by omega)]
        · rw [if_neg hbc] at h2
          by_cases hcb : c.toNat < b.toNat
          · rw [if_pos hcb] at h2; exact absurd h2 (by simp)
          · rw [if_pos (by omega)]
        · rw [if_neg hab] at h1
          by_cases hba : b.toNat < a.toNat
          · rw [if_pos hba] at h1; exact absurd h1 (by simp)
          · rw [if_pos (by omega)]
        · rw [if_neg hab] at h1
          rw [if_neg hbc] at h2
          by_cases hba : b.toNat < a.toNat
          · rw [if_pos hba] at h1; exact absurd h1 (by simp)
          · by_cases hcb : c.toNat < b.toNat
            · rw [if_pos hcb] at h2; exact absurd h2 (by simp)
            · rw [if_neg hba] at h1
              rw [if_neg hcb] at h2
              rw [if_neg (by omega), if_neg (by omega)]
              exact ih bs cs h1 h2

instance : IsTotal String pyStrLe :=
  ⟨fun a b => pyLeChars_total a.data b.data⟩

instance : IsTrans String pyStrLe :=
  ⟨fun a b c => pyLeChars_trans a.data b.data c.data⟩

/-- Python `sorted` on strings. -/
def pySorted (l : List String) : List String := l.insertionSort pyStrLe

/-- `BackfillManager.get_processed_dates`: the warehouse query; any
exception is caught and an empty list returned. -/
def get_processed_dates (oracle : Except String (List String)) : List String :=
  match oracle with
  | .ok l => l
  | .error _ => []

/-- `BackfillManager.filter_dates_to_process`. -/
def filter_dates_to_process (skip_existing : Bool)
    (oracle : Except String (List String))
    (available_dates : List String) : List String :=
  if skip_existing = false then available_dates
  else
    pySorted (available_dates.filter
      (fun date => !((get_processed_dates oracle).contains date)))

/-- C7 (amended): with `skip_existing = false` the candidate list is
returned unchanged; with `skip_existing = true` and oracle set `S` the
result is the candidates not in `S` sorted ascending (so a permutation of
the order-preserving filter, equal to it whenever the candidate list is
already ascending).  The function ends in `sorted(...)`, so the original
relative order of an unsorted candidate list is not preserved. -/
theorem claim_C7_filter_dates_to_process (oracle : Except String (List String))
    (available : List String) :
    (filter_dates_to_process false oracle available = available) ∧
    (∀ S : List String, oracle = .ok S →
      (filter_dates_to_process true oracle available).Perm
        (available.filter (fun d => !(S.contains d))) ∧
      (filter_dates_to_process true oracle available).Sorted pyStrLe ∧
      (available.Sorted pyStrLe →
        filter_dates_to_process true oracle available
          = available.filter (fun d => !(S.contains d)))) := by
  constructor
  · rfl
  · intro S hS
    subst hS
    refine ⟨List.perm_insertionSort _ _, List.sorted_insertionSort _ _, ?_⟩
    intro hsorted
    exact List.Sorted.insertionSort_eq (List.Pairwise.filter _ hsorted)

/-- C7 counterexample: with an unsorted candidate list and an empty
processed set, the code returns the candidates re-sorted ascending rather
than in their original relative order, refuting the order-preservation
clause of the claim. -/
theorem claim_C7_filter_dates_to_process_counterexample :
    filter_dates_to_process true (.ok []) ["20240405", "20240404"]
      = ["20240404", "20240405"] ∧
    ¬ filter_dates_to_process true (.ok []) ["20240405", "20240404"]
        = ["20240405", "20240404"].filter
            (fun d => !(([] : List String).contains d)) := by
  constructor
  · decide
  · decide

theorem claim_C7_filter_dates_to_process_witness :
    filter_dates_to_process true (.ok ["20240405"])
        ["20240404", "20240405", "20240406"]
      = ["20240404", "20240406"] := by
  have h := (claim_C7_filter_dates_to_process (.ok ["20240405"])
    ["20240404", "20240405", "20240406"]).2 ["20240405"] rfl
  have hs : (["20240404", "20240405", "20240406"] : List String).Sorted pyStrLe := by
    unfold List.Sorted
    decide
  rw [h.2.2 hs]
  decide

/-! ## `BackfillManager.process_single_date` and collaborators

Collaborator calls are modelled by an `Env` of behaviours; `.error` is a
raised exception.  `load_op` is the body of `BigQueryLoader.load_dataframe`,
which its own `@retry_with_backoff(max_attempts=3)` decorator retries, so it
is indexed by table and by attempt.  Wall-clock fields (`execution_time`,
timestamps) and the result sub-dicts used only for logging
(`load_results`, `validation_results`, `file_details`) are not modelled. -/

structure Env where
  list_files : String → Except String (List String)
  file_info_size : String → Except String Nat
  download_files : String → Except String (List String)
  transform_file : String → String → Except String (Option DF)
  load_op : String → Nat → Except String Unit
  validate : String → Except String Unit

/-- `BackfillManager.__init__` keyword arguments. -/
structure RunConfig where
  max_workers : Nat := 3
  batch_size : Nat := 10
  skip_existing : Bool := true
  validate_data : Bool := true
deriving DecidableEq

/-- `BackfillManager._analyze_sftp_files`: probe the file listing; per-file
`get_file_info` failures contribute zero estimated records; any listing
failure yields the all-zero analysis.  `estimated_records` is
`max(0, size // 100 - 1)` (truncated subtraction on `Nat`); the
`has_meaningful_data` bounds `10`/`4` are hard-coded in the source. -/
def analyze_sftp_files (env : Env) (date : String) : FileAnalysis :=
  match env.list_files date with
  | .error _ =>
    { total_records := 0, files_found := 0, total_sales := 0,
      has_meaningful_data := false }
  | .ok files =>
    let total := (files.map (fun f =>
      match env.file_info_size f with
      | .ok size => size / 100 - 1
      | .error _ => 0)).sum
    { total_records := total, files_found := files.length, total_sales := 0,
      has_meaningful_data := decide (10 ≤ total ∧ 4 ≤ files.length) }

def listHasPre : List Char → List Char → Bool
  | [], _ => true
  | _ :: _, [] => false
  | a :: as, b :: bs => a == b && listHasPre as bs

def listHasInf (p : List Char) : List Char → Bool
  | [] => p.isEmpty
  | c :: cs => listHasPre p (c :: cs) || listHasInf p cs

def lowerStr (s : String) : String := ⟨s.data.map Char.toLower⟩

/-- `os.path.basename`: the part after the last path separator. -/
def basename (p : String) : String :=
  ⟨(p.data.reverse.takeWhile (fun c => !(c == '/'))).reverse⟩

def table_mapping : List (String × String) :=
  [("allitemsreport", "all_items_report"),
   ("checkdetails", "check_details"),
   ("cashentries", "cash_entries"),
   ("itemselectiondetails", "item_selection_details"),
   ("kitchentimings", "kitchen_timings"),
   ("orderdetails", "order_details"),
   ("paymentdetails", "payment_details")]

/-- `BackfillManager._get_table_name_from_file`: first matching pattern of
the (insertion-ordered) mapping wins. -/
def get_table_name_from_file (file_path : String) : Option String :=
  (table_mapping.find?
    (fun kv => listHasInf kv.1.data (lowerStr (basename file_path)).data)).map
    Prod.snd

/-- Python dict assignment `m[k] = v`: overwrite in place, else append. -/
def dictSet (m : List (String × DF)) (k : String) (v : DF) :
    List (String × DF) :=
  if m.any (fun kv => kv.1 == k) then
    m.map (fun kv => if kv.1 == k then (k, v) else kv)
  else m ++ [(k, v)]

/-- The transform loop of `process_single_date`: files whose name maps to no
table are skipped, `None`/empty frames are dropped, and a raised transform
exception propagates to the function boundary. -/
def transformLoop (env : Env) : List String → List (String × DF) →
    Except String (List (String × DF))
  | [], acc => .ok acc
  | f :: fs, acc =>
    match get_table_name_from_file f with
    | none => transformLoop env fs acc
    | some t =>
      match env.transform_file f t with
      | .error e => .error e
      | .ok none => transformLoop env fs acc
      | .ok (some df) =>
        if df.isEmpty then transformLoop env fs acc
        else transformLoop env fs (dictSet acc t df)

/-- One call of the decorated `BigQueryLoader.load_dataframe` for a table:
the decorator retries the body up to three times with all exceptions
retryable.  Returns the call outcome and how many times the body ran. -/
def call_load_dataframe (env : Env) (t : String) :
    Except String (Option Unit) × Nat :=
  pyRetry (env.load_op t) (fun _ => true) 3

/-- The load loop shared by the normal-day path and
`_load_closure_records`: per-table exceptions are caught (the table's entry
becomes an error entry and its rows are not counted).  Returns
`(total_records, total body invocations)`. -/
def loadLoop (env : Env) : List (String × DF) → Nat × Nat
  | [] => (0, 0)
  | (t, df) :: rest =>
    let r := call_load_dataframe env t
    let acc := loadLoop env rest
    match r.1 with
    | .ok _ => (df.length + acc.1, r.2 + acc.2)
    | .error _ => (acc.1, r.2 + acc.2)

/-- The `result` dict of `process_single_date` (and of the batch-exception
handler), restricted to the fields the orchestrator reads. -/
structure Outcome where
  date : String
  status : String
  error : Option String := none
  closure_reason : Option String := none
  records_loaded : Option Nat := none
  tables : Option Nat := none
  processing_type : String
deriving DecidableEq, Repr

/-- The `try` body of `process_single_date`.  The second component is a
ghost counter: how many times a loader body ran during the call. -/
def process_single_date_body (env : Env) (cfg : ThresholdConfig)
    (rc : RunConfig) (date : String) : Except String (Outcome × Nat) :=
  match should_process_as_closure cfg date (analyze_sftp_files env date) with
  | .error e => .error e
  | .ok (true, reason, closure_records) =>
    .ok ({ date := date, status := "closure_processed",
           closure_reason := some reason,
           records_loaded := some (loadLoop env closure_records).1,
           tables := some closure_records.length,
           processing_type := "business_closure" }, (loadLoop env closure_records).2)
  | .ok (false, _, _) =>
    match env.download_files date with
    | .error e => .error e
    | .ok files =>
      if files.isEmpty then
        .ok ({ date := date, status := "no_files",
               error := some "No files found on SFTP",
               processing_type := "failed_download" }, 0)
      else
        match transformLoop env files [] with
        | .error e => .error e
        | .ok transformed =>
          if transformed.isEmpty then
            .ok ({ date := date, status := "no_data",
                   error := some "No data after transformation",
                   processing_type := "failed_transform" }, 0)
          else
            if rc.validate_data then
              match env.validate date with
              | .error e => .error e
              | .ok _ =>
                .ok ({ date := date, status := "success",
                       records_loaded := some (loadLoop env transformed).1,
                       tables := some transformed.length,
                       processing_type := "normal_business_day" },
                  (loadLoop env transformed).2)
            else
              .ok ({ date := date, status := "success",
                     records_loaded := some (loadLoop env transformed).1,
                     tables := some transformed.length,
                     processing_type := "normal_business_day" },
                (loadLoop env transformed).2)

def mk_error_outcome (date e : String) : Outcome :=
  { date := date, status := "error", error := some e,
    processing_type := "failed_error" }

/-- `process_single_date`: the boundary `except Exception` turns any raised
exception into an `error` result; the function itself never raises (hence
its `@retry_with_backoff` decorator never re-invokes it). -/
def process_single_date (env : Env) (cfg : ThresholdConfig) (rc : RunConfig)
    (date : String) : Outcome :=
  match process_single_date_body env cfg rc date with
  | .ok r => r.1
  | .error e => mk_error_outcome date e

/-! ## `process_date_batch` / `run_backfill` statistics

Dates of a batch complete in a nondeterministic order (`as_completed`), so
the collection loop is folded over an *arrival list*; run-level theorems
quantify over any arrival order that is a permutation of each batch.
`future.result()` may itself raise (the `except` at the end of the loop
body), so an arrival carries `Except String Outcome`. -/

structure Stats where
  total_dates : Nat := 0
  processed_dates : Nat := 0
  skipped_dates : Nat := 0
  failed_dates : Nat := 0
  closure_dates : Nat := 0
  total_records : Nat := 0
  failed_date_list : List String := []
  closure_date_list : List String := []
  processing_details : List Outcome := []
deriving DecidableEq, Repr

/-- Lines 507-519 of `backfill_manager.py`: statistics update for one
collected result.  Everything that is neither `success` nor
`closure_processed` — including `no_files`, `no_data` and `error` — falls
into the `else` branch and is counted as failed. -/
def record_result (st : Stats) (date : String) (r : Outcome) : Stats :=
  if r.status = "success" then
    { st with processed_dates := st.processed_dates + 1,
              total_records := st.total_records + r.records_loaded.getD 0,
              processing_details := st.processing_details ++ [r] }
  else if r.status = "closure_processed" then
    { st with closure_dates := st.closure_dates + 1,
              closure_date_list := st.closure_date_list ++ [date],
              total_records := st.total_records + r.records_loaded.getD 0,
              processing_details := st.processing_details ++ [r] }
  else
    { st with failed_dates := st.failed_dates + 1,
              failed_date_list := st.failed_date_list ++ [date],
              processing_details := st.processing_details ++ [r] }

def mk_batch_error_outcome (date e : String) : Outcome :=
  { date := date, status := "error", error := some e,
    processing_type := "batch_exception" }

/-- What the collection loop appends to `results` for one arrival. -/
def convertArr (arr : String × Except String Outcome) : Outcome :=
  match arr.2 with
  | .ok r => r
  | .error e => mk_batch_error_outcome arr.1 e

/-- One iteration of the `as_completed` collection loop (lines 500-543):
a raised `future.result()` is degraded to a failed outcome for that date
(`processing_details` is not appended in that branch). -/
def collect_one (acc : Stats × List Outcome)
    (arr : String × Except String Outcome) : Stats × List Outcome :=
  match arr.2 with
  | .ok r => (record_result acc.1 arr.1 r, acc.2 ++ [r])
  | .error e =>
    ({ acc.1 with failed_dates := acc.1.failed_dates + 1,
                  failed_date_list := acc.1.failed_date_list ++ [arr.1] },
     acc.2 ++ [mk_batch_error_outcome arr.1 e])

def process_date_batch (st : Stats)
    (arrivals : List (String × Except String Outcome)) :
    Stats × List Outcome :=
  arrivals.foldl collect_one (st, [])

/-- `dates_to_process[i:i + batch_size]` slicing loop of `run_backfill`,
with an explicit iteration bound. -/
def toBatchesGo (bs : Nat) : Nat → List String → List (List String)
  | 0, _ => []
  | _, [] => []
  | fuel + 1, d :: rest => ((d :: rest).take bs) :: toBatchesGo bs fuel ((d :: rest).drop bs)

def toBatches (bs : Nat) (l : List String) : List (List String) :=
  toBatchesGo bs l.length l

/-- `run_backfill` over an already-resolved date list: `total_dates` is set
before processing, then the batches run sequentially, each folding its
arrival order into the shared statistics.  `behavior d` is what collecting
date `d`'s future yields (`process_single_date` never raises, so with the
real executor it is always `.ok`; an `.error` models a worker-pool
collection failure). -/
def run_backfill (behavior : String → Except String Outcome)
    (dates : List String) (orders : List (List String)) : Stats :=
  let st0 : Stats := { total_dates := dates.length }
  orders.foldl (fun st batch =>
    (process_date_batch st (batch.map (fun d => (d, behavior d)))).1) st0

/-- The fields of `get_summary` the claims are about (duration and the
timestamps are wall-clock and not modelled). -/
structure Summary where
  total_dates : Nat
  processed_dates : Nat
  closure_dates : Nat
  failed_dates : Nat
  skipped_dates : Nat
  total_records : Nat
  success_rate : Rat
  failed_date_list : List String
  closure_date_list : List String
  processing_details : List Outcome
deriving DecidableEq

def get_summary (st : Stats) : Summary :=
  { total_dates := st.total_dates,
    processed_dates := st.processed_dates,
    closure_dates := st.closure_dates,
    failed_dates := st.failed_dates,
    skipped_dates := st.skipped_dates,
    total_records := st.total_records,
    success_rate := ((st.processed_dates : Rat) + (st.closure_dates : Rat))
      / (max st.total_dates 1 : Nat) * 100,
    failed_date_list := st.failed_date_list,
    closure_date_list := st.closure_date_list,
    processing_details := st.processing_details }

/-! ### Classification of one arrival by the collection loop -/

def isSuccArr (arr : String × Except String Outcome) : Bool :=
  match arr.2 with
  | .ok r => decide (r.status = "success")
  | .error _ => false

def isClosArr (arr : String × Except String Outcome) : Bool :=
  match arr.2 with
  | .ok r => decide (r.status = "closure_processed")
  | .error _ => false

def isFailArr (arr : String × Except String Outcome) : Bool :=
  !(isSuccArr arr) && !(isClosArr arr)

theorem succ_clos_exclusive (arr : String × Except String Outcome) :
    isSuccArr arr = true → isClosArr arr = true → False := by
  obtain ⟨d, o⟩ := arr
  cases o with
  | error e => intro h _; exact absurd h (by simp [isSuccArr])
  | ok r =>
    intro h1 h2
    simp only [isSuccArr, decide_eq_true_eq] at h1
    simp only [isClosArr, decide_eq_true_eq] at h2
    rw [h1] at h2
    exact absurd h2 (by decide)

theorem collect_one_fields (acc : Stats × List Outcome)
    (arr : String × Except String Outcome) :
    (collect_one acc arr).1.total_dates = acc.1.total_dates ∧
    (collect_one acc arr).1.processed_dates
      = acc.1.processed_dates + (if isSuccArr arr then 1 else 0) ∧
    (collect_one acc arr).1.closure_dates
      = acc.1.closure_dates + (if isClosArr arr then 1 else 0) ∧
    (collect_one acc arr).1.failed_dates
      = acc.1.failed_dates + (if isFailArr arr then 1 else 0) ∧
    (collect_one acc arr).1.failed_date_list
      = acc.1.failed_date_list ++ (if isFailArr arr then [arr.1] else []) ∧
    (collect_one acc arr).1.closure_date_list
      = acc.1.closure_date_list ++ (if isClosArr arr then [arr.1] else []) ∧
    (collect_one acc arr).2 = acc.2 ++ [convertArr arr] := by
  obtain ⟨d, o⟩ := arr
  cases o with
  | error e =>
    simp [collect_one, isSuccArr, isClosArr, isFailArr, convertArr]
  | ok r =>
    by_cases hs : r.status = "success"
    · simp [collect_one, record_result, isSuccArr, isClosArr, isFailArr,
        convertArr, hs]
    · by_cases hc : r.status = "closure_processed"
      · simp [collect_one, record_result, isSuccArr, isClosArr, isFailArr,
          convertArr, hs, hc]
      · simp [collect_one, record_result, isSuccArr, isClosArr, isFailArr,
          convertArr, hs, hc]

theorem foldl_collect_stats_res (A : List (String × Except String Outcome)) :
    ∀ (st : Stats) (res res' : List Outcome),
      (A.foldl collect_one (st, res)).1 = (A.foldl collect_one (st, res')).1 := by
  induction A with
  | nil => intro st res res'; rfl
  | cons a as ih =>
    intro st res res'
    show (as.foldl collect_one (collect_one (st, res) a)).1
      = (as.foldl collect_one (collect_one (st, res') a)).1
    have hst : (collect_one (st, res) a).1 = (collect_one (st, res') a).1 := by
      obtain ⟨d, o⟩ := a
      cases o <;> rfl
    calc (as.foldl collect_one (collect_one (st, res) a)).1
        = (as.foldl collect_one ((collect_one (st, res) a).1,
            (collect_one (st, res) a).2)).1 := rfl
      _ = (as.foldl collect_one ((collect_one (st, res') a).1,
            (collect_one (st, res) a).2)).1 := by rw [hst]
      _ = (as.foldl collect_one ((collect_one (st, res') a).1,
            (collect_one (st, res') a).2)).1 := by
            exact ih _ _ _
      _ = (as.foldl collect_one (collect_one (st, res') a)).1 := rfl

theorem foldl_collect_total (A : List (String × Except String Outcome)) :
    ∀ (st : Stats) (res : List Outcome),
      (A.foldl collect_one (st, res)).1.total_dates = st.total_dates := by
  induction A with
  | nil => intro st res; rfl
  | cons a as ih =>
    intro st res
    show (as.foldl collect_one (collect_one (st, res) a)).1.total_dates = _
    rw [show collect_one (st, res) a
        = ((collect_one (st, res) a).1, (collect_one (st, res) a).2) from rfl]
    rw [ih _ _]
    exact (collect_one_fields (st, res) a).1

theorem foldl_collect_processed (A : List (String × Except String Outcome)) :
    ∀ (st : Stats) (res : List Outcome),
      (A.foldl collect_one (st, res)).1.processed_dates
        = st.processed_dates + A.countP isSuccArr := by
  induction A with
  | nil => intro st res; simp
  | cons a as ih =>
    intro st res
    show (as.foldl collect_one (collect_one (st, res) a)).1.processed_dates = _
    rw [show collect_one (st, res) a
        = ((collect_one (st, res) a).1, (collect_one (st, res) a).2) from rfl]
    rw [ih _ _]
    have h := (collect_one_fields (st, res) a).2.1
    rw [h, List.countP_cons]
    cases hsa : isSuccArr a <;> simp [hsa] <;> omega

theorem foldl_collect_closure (A : List (String × Except String Outcome)) :
    ∀ (st : Stats) (res : List Outcome),
      (A.foldl collect_one (st, res)).1.closure_dates
        = st.closure_dates + A.countP isClosArr := by
  induction A with
  | nil => intro st res; simp
  | cons a as ih =>
    intro st res
    show (as.foldl collect_one (collect_one (st, res) a)).1.closure_dates = _
    rw [show collect_one (st, res) a
        = ((collect_one (st, res) a).1, (collect_one (st, res) a).2) from rfl]
    rw [ih _ _]
    have h := (collect_one_fields (st, res) a).2.2.1
    rw [h, List.countP_cons]
    cases hca : isClosArr a <;> simp [hca] <;> omega

theorem foldl_collect_failed (A : List (String × Except String Outcome)) :
    ∀ (st : Stats) (res : List Outcome),
      (A.foldl collect_one (st, res)).1.failed_dates
        = st.failed_dates + A.countP isFailArr := by
  induction A with
  | nil => intro st res; simp
  | cons a as ih =>
    intro st res
    show (as.foldl collect_one (collect_one (st, res) a)).1.failed_dates = _
    rw [show collect_one (st, res) a
        = ((collect_one (st, res) a).1, (collect_one (st, res) a).2) from rfl]
    rw [ih _ _]
    have h := (collect_one_fields (st, res) a).2.2.2.1
    rw [h, List.countP_cons]
    cases hfa : isFailArr a <;> simp [hfa] <;> omega

theorem foldl_collect_faillist (A : List (String × Except String Outcome)) :
    ∀ (st : Stats) (res : List Outcome),
      (A.foldl collect_one (st, res)).1.failed_date_list
        = st.failed_date_list ++ (A.filter isFailArr).map Prod.fst := by
  induction A with
  | nil => intro st res; simp
  | cons a as ih =>
    intro st res
    show (as.foldl collect_one (collect_one (st, res) a)).1.failed_date_list = _
    rw [show collect_one (st, res) a
        = ((collect_one (st, res) a).1, (collect_one (st, res) a).2) from rfl]
    rw [ih _ _]
    have h := (collect_one_fields (st, res) a).2.2.2.2.1
    rw [h, List.filter_cons]
    cases hfa : isFailArr a <;> simp [hfa]

theorem foldl_collect_closlist (A : List (String × Except String Outcome)) :
    ∀ (st : Stats) (res : List Outcome),
      (A.foldl collect_one (st, res)).1.closure_date_list
        = st.closure_date_list ++ (A.filter isClosArr).map Prod.fst := by
  induction A with
  | nil => intro st res; simp
  | cons a as ih =>
    intro st res
    show (as.foldl collect_one (collect_one (st, res) a)).1.closure_date_list = _
    rw [show collect_one (st, res) a
        = ((collect_one (st, res) a).1, (collect_one (st, res) a).2) from rfl]
    rw [ih _ _]
    have h := (collect_one_fields (st, res) a).2.2.2.2.2.1
    rw [h, List.filter_cons]
    cases hca : isClosArr a <;> simp [hca]

theorem foldl_collect_results (A : List (String × Except String Outcome)) :
    ∀ (st : Stats) (res : List Outcome),
      (A.foldl collect_one (st, res)).2 = res ++ A.map convertArr := by
  induction A with
  | nil => intro st res; simp
  | cons a as ih =>
    intro st res
    show (as.foldl collect_one (collect_one (st, res) a)).2 = _
    rw [show collect_one (st, res) a
        = ((collect_one (st, res) a).1, (collect_one (st, res) a).2) from rfl]
    rw [ih _ _]
    have h := (collect_one_fields (st, res) a).2.2.2.2.2.2
    rw [h]
    simp

theorem countP_three (A : List (String × Except String Outcome)) :
    A.countP isSuccArr + A.countP isClosArr + A.countP isFailArr = A.length := by
  induction A with
  | nil => rfl
  | cons a as ih =>
    rw [List.countP_cons, List.countP_cons, List.countP_cons, List.length_cons]
    cases hsa : isSuccArr a <;> cases hca : isClosArr a
    · have : isFailArr a = true := by simp [isFailArr, hsa, hca]
      simp [this]; omega
    · have : isFailArr a = false := by simp [isFailArr, hca]
      simp [this]; omega
    · have : isFailArr a = false := by simp [isFailArr, hsa]
      simp [this]; omega
    · exact absurd hca (by
        intro hc
        exact succ_clos_exclusive a hsa hc)

theorem run_fold_eq_join (behavior : String → Except String Outcome)
    (orders : List (List String)) : ∀ st : Stats,
    orders.foldl (fun st batch =>
      (process_date_batch st (batch.map (fun d => (d, behavior d)))).1) st
      = ((orders.join.map (fun d => (d, behavior d))).foldl
          collect_one (st, [])).1 := by
  induction orders with
  | nil => intro st; rfl
  | cons b obs ih =>
    intro st
    show obs.foldl _ (process_date_batch st (b.map (fun d => (d, behavior d)))).1
      = _
    rw [ih]
    rw [show (b :: obs).join = b ++ obs.join from rfl, List.map_append,
      List.foldl_append]
    exact foldl_collect_stats_res _ _ _ _

theorem forall2_perm_join {l1 l2 : List (List String)}
    (h : List.Forall₂ List.Perm l1 l2) : l1.join.Perm l2.join := by
  induction h with
  | nil => rfl
  | cons hab _ ih => simpa using hab.append ih

theorem toBatchesGo_join {bs : Nat} (hbs : 1 ≤ bs) :
    ∀ (fuel : Nat) (l : List String), l.length ≤ fuel →
      (toBatchesGo bs fuel l).join = l := by
  intro fuel
  induction fuel with
  | zero =>
    intro l hl
    cases l with
    | nil => rfl
    | cons d rest => exact absurd hl (by simp)
  | succ n ih =>
    intro l hl
    cases l with
    | nil => rfl
    | cons d rest =>
      show ((d :: rest).take bs) ++ (toBatchesGo bs n ((d :: rest).drop bs)).join
        = d :: rest
      rw [ih _ (by
        have h1 : ((d :: rest).drop bs).length = (d :: rest).length - bs :=
          List.length_drop bs (d :: rest)
        have h2 : (d :: rest).length = rest.length + 1 := rfl
        omega)]
      exact List.take_append_drop bs (d :: rest)

theorem toBatches_join (bs : Nat) (l : List String) (hbs : 1 ≤ bs) :
    (toBatches bs l).join = l :=
  toBatchesGo_join hbs l.length l (Nat.le_refl _)

theorem filter_map_pair (behavior : String → Except String Outcome)
    (p : String × Except String Outcome → Bool) (J : List String) :
    ((J.map (fun d => (d, behavior d))).filter p).map Prod.fst
      = J.filter (fun d => p (d, behavior d)) := by
  induction J with
  | nil => rfl
  | cons d J ih =>
    by_cases hp : p (d, behavior d) = true <;>
      simp [List.filter_cons, hp, ih]

/-- C1: after a completed `run_backfill` over `n` distinct resolved dates
(batches processed sequentially, each batch's results collected in an
arbitrary completion order), the summary satisfies
`processed + closures + failed = total = n`, and the failed/closure date
lists are duplicate-free, disjoint, and drawn from the resolved list. -/
theorem claim_C1_run_backfill_invariants
    (behavior : String → Except String Outcome) (dates : List String)
    (bs : Nat) (orders : List (List String)) (hbs : 1 ≤ bs)
    (hnd : dates.Nodup)
    (horders : List.Forall₂ List.Perm orders (toBatches bs dates)) :
    ((get_summary (run_backfill behavior dates orders)).processed_dates
        + (get_summary (run_backfill behavior dates orders)).closure_dates
        + (get_summary (run_backfill behavior dates orders)).failed_dates
      = (get_summary (run_backfill behavior dates orders)).total_dates) ∧
    (get_summary (run_backfill behavior dates orders)).total_dates

      = dates.length ∧
    (get_summary (run_backfill behavior dates orders)).failed_date_list.Nodup ∧
    (get_summary (run_backfill behavior dates orders)).closure_date_list.Nodup ∧
    (∀ d ∈ (get_summary (run_backfill behavior dates orders)).failed_date_list,
      d ∉ (get_summary (run_backfill behavior dates orders)).closure_date_list) ∧
    (∀ d ∈ (get_summary (run_backfill behavior dates orders)).failed_date_list,
      d ∈ dates) ∧
    (∀ d ∈ (get_summary (run_backfill behavior dates orders)).closure_date_list,
      d ∈ dates) := by
  have hJperm : orders.join.Perm dates := by
    have h1 := forall2_perm_join horders
    rw [toBatches_join bs dates hbs] at h1
    exact h1
  have hJnd : orders.join.Nodup := hJperm.symm.nodup hnd
  have hrun : run_backfill behavior dates orders
      = ((orders.join.map (fun d => (d, behavior d))).foldl collect_one
          (({ total_dates := dates.length } : Stats), [])).1 :=
    run_fold_eq_join behavior orders _
  have htot : (run_backfill behavior dates orders).total_dates = dates.length := by
    rw [hrun, foldl_collect_total]
  have hproc : (run_backfill behavior dates orders).processed_dates
      = (orders.join.map (fun d => (d, behavior d))).countP isSuccArr := by
    rw [hrun, foldl_collect_processed]
    simp
  have hclos : (run_backfill behavior dates orders).closure_dates
      = (orders.join.map (fun d => (d, behavior d))).countP isClosArr := by
    rw [hrun, foldl_collect_closure]
    simp
  have hfail : (run_backfill behavior dates orders).failed_dates
      = (orders.join.map (fun d => (d, behavior d))).countP isFailArr := by
    rw [hrun, foldl_collect_failed]
    simp
  have hflist : (run_backfill behavior dates orders).failed_date_list
      = orders.join.filter (fun d => isFailArr (d, behavior d)) := by
    rw [hrun, foldl_collect_faillist]
    rw [filter_map_pair]
    rfl
  have hclist : (run_backfill behavior dates orders).closure_date_list
      = orders.join.filter (fun d => isClosArr (d, behavior d)) := by
    rw [hrun, foldl_collect_closlist]
    rw [filter_map_pair]
    rfl
  refine ⟨?_, ?_, ?_, ?_, ?_, ?_, ?_⟩
  · show (run_backfill behavior dates orders).processed_dates
        + (run_backfill behavior dates orders).closure_dates
        + (run_backfill behavior dates orders).failed_dates
      = (run_backfill behavior dates orders).total_dates
    rw [hproc, hclos, hfail, htot, countP_three, List.length_map]
    exact hJperm.length_eq
  · exact htot
  · show (run_backfill behavior dates orders).failed_date_list.Nodup
    rw [hflist]
    exact hJnd.filter _
  · show (run_backfill behavior dates orders).closure_date_list.Nodup
    rw [hclist]
    exact hJnd.filter _
  · intro d hdf hdc
    rw [show (get_summary (run_backfill behavior dates orders)).failed_date_list
        = (run_backfill behavior dates orders).failed_date_list from rfl,
      hflist] at hdf
    rw [show (get_summary (run_backfill behavior dates orders)).closure_date_list
        = (run_backfill behavior dates orders).closure_date_list from rfl,
      hclist] at hdc
    have h1 := (List.mem_filter.mp hdf).2
    have h2 := (List.mem_filter.mp hdc).2
    unfold isFailArr at h1
    rw [Bool.and_eq_true, Bool.not_eq_eq_eq_not] at h1
    rw [h2] at h1
    exact absurd h1.2 (by decide)
  · intro d hdf
    rw [show (get_summary (run_backfill behavior dates orders)).failed_date_list
        = (run_backfill behavior dates orders).failed_date_list from rfl,
      hflist] at hdf
    exact hJperm.subset (List.mem_filter.mp hdf).1
  · intro d hdc
    rw [show (get_summary (run_backfill behavior dates orders)).closure_date_list
        = (run_backfill behavior dates orders).closure_date_list from rfl,
      hclist] at hdc
    exact hJperm.subset (List.mem_filter.mp hdc).1

def c1behavior : String → Except String Outcome := fun d =>
  .ok { date := d, status := "success",
        processing_type := "normal_business_day" }

theorem claim_C1_run_backfill_invariants_witness :
    ((get_summary (run_backfill c1behavior ["20240404", "20240405", "20240406"]
        [["20240405", "20240404"], ["20240406"]])).processed_dates
      + (get_summary (run_backfill c1behavior ["20240404", "20240405", "20240406"]
        [["20240405", "20240404"], ["20240406"]])).closure_dates
      + (get_summary (run_backfill c1behavior ["20240404", "20240405", "20240406"]
        [["20240405", "20240404"], ["20240406"]])).failed_dates
      = (get_summary (run_backfill c1behavior ["20240404", "20240405", "20240406"]
        [["20240405", "20240404"], ["20240406"]])).total_dates) ∧
    (get_summary (run_backfill c1behavior ["20240404", "20240405", "20240406"]
        [["20240405", "20240404"], ["20240406"]])).total_dates = 3 := by
  have h := claim_C1_run_backfill_invariants c1behavior
    ["20240404", "20240405", "20240406"] 2
    [["20240405", "20240404"], ["20240406"]]
    (by omega) (by decide)
    (by
      rw [show toBatches 2 ["20240404", "20240405", "20240406"]
          = [["20240404", "20240405"], ["20240406"]] from rfl]
      exact List.Forall₂.cons (List.Perm.swap "20240404" "20240405" [])
        (List.Forall₂.cons (List.Perm.refl _) List.Forall₂.nil))
  exact ⟨h.1, by rw [h.2.1]; rfl⟩

/-- C2: `process_single_date` is total — any exception raised by a step is
caught at the function boundary and becomes the `error` result carrying the
message (first clause); and the collection loop of `process_date_batch`
yields exactly one result per arrival whatever each arrival did, converting
a raised `future.result()` into an error ("Failed") outcome for that date
(second and third clauses), so a batch — and hence the run and its
summary — always completes. -/
theorem claim_C2_exception_isolation (env : Env) (cfg : ThresholdConfig)
    (rc : RunConfig) :
    (∀ date e, process_single_date_body env cfg rc date = .error e →
      process_single_date env cfg rc date = mk_error_outcome date e) ∧
    (∀ (st : Stats) (arrivals : List (String × Except String Outcome)),
      (process_date_batch st arrivals).2 = arrivals.map convertArr) ∧
    (∀ date e, convertArr (date, .error e) = mk_batch_error_outcome date e) := by
  refine ⟨?_, ?_, ?_⟩
  · intro date e h
    unfold process_single_date
    rw [h]
  · intro st arrivals
    have h := foldl_collect_results arrivals st []
    simpa using h
  · intro date e
    rfl

/-- A collaborator environment whose download step raises. -/
def c2env : Env :=
  { list_files := fun _ => .ok ["a", "b", "c", "d"],
    file_info_size := fun _ => .ok 600,
    download_files := fun _ => .error "boom",
    transform_file := fun _ _ => .ok none,
    load_op := fun _ _ => .ok (),
    validate := fun _ => .ok () }

theorem claim_C2_exception_isolation_witness :
    process_single_date c2env {} {} "20240404"
      = mk_error_outcome "20240404" "boom" :=
  (claim_C2_exception_isolation c2env {} {}).1 "20240404" "boom" rfl

def c8r : Outcome :=
  { date := "20240404", status := "no_files",
    error := some "No files found on SFTP",
    processing_type := "failed_download" }

/-- C8 counterexample: collecting a result whose status is `no_files` lands
in the `else` branch of the statistics update — `failed_dates` is
incremented and the date is appended to `failed_date_list`, contradicting
the claim that a `no_files`/`no_data` date is not counted as failed. -/
theorem claim_C8_data_absence_counterexample :
    ((process_date_batch {} [("20240404", .ok c8r)]).1).failed_dates = 1 ∧
    ((process_date_batch {} [("20240404", .ok c8r)]).1).failed_date_list
      = ["20240404"] := by
  constructor
  · rfl
  · rfl

/-- C8 (amended): a date whose outcome is `no_files` or `no_data` keeps its
distinct status in the stored result, but the statistics update treats every
status other than `success`/`closure_processed` as a failure: it increments
`failed_dates` and appends the date to `failed_date_list`. -/
theorem claim_C8_data_absence_counted (st : Stats) (date : String)
    (r : Outcome) (h : r.status = "no_files" ∨ r.status = "no_data") :
    (process_date_batch st [(date, .ok r)]).1
      = { st with failed_dates := st.failed_dates + 1,
                  failed_date_list := st.failed_date_list ++ [date],
                  processing_details := st.processing_details ++ [r] } ∧
    (process_date_batch st [(date, .ok r)]).2 = [r] := by
  have hs : ¬ r.status = "success" := by
    rcases h with h | h <;> rw [h] <;> decide
  have hc : ¬ r.status = "closure_processed" := by
    rcases h with h | h <;> rw [h] <;> decide
  constructor
  · show record_result st date r = _
    unfold record_result
    rw [if_neg hs, if_neg hc]
  · rfl

def emptyStats : Stats := {}

theorem claim_C8_data_absence_counted_witness :
    (process_date_batch emptyStats [("20240404", .ok c8r)]).1
      = { emptyStats with
          failed_dates := emptyStats.failed_dates + 1,
          failed_date_list := emptyStats.failed_date_list ++ ["20240404"],
          processing_details := emptyStats.processing_details ++ [c8r] } ∧
    (process_date_batch emptyStats [("20240404", .ok c8r)]).2 = [c8r] :=
  claim_C8_data_absence_counted emptyStats "20240404" c8r (Or.inl rfl)

/-! ## C10: an SFTP probe failure becomes a `no_files` closure -/

def zeroAnalysis : FileAnalysis :=
  { total_records := 0, files_found := 0, total_sales := 0,
    has_meaningful_data := false }

theorem call_load_ok (env : Env) (t : String)
    (h : env.load_op t 0 = .ok ()) :
    call_load_dataframe env t = (.ok (some ()), 1) := by
  unfold call_load_dataframe pyRetry pyRetryGo
  rw [dif_pos (by omega), h]

theorem loadLoop_closure_all_ok (env : Env) (d : Date) (r : String)
    (h : ∀ t, env.load_op t 0 = .ok ()) :
    loadLoop env (closure_records_for d r) = (7, 7) := by
  have h1 := call_load_ok env "all_items_report" (h _)
  have h2 := call_load_ok env "check_details" (h _)
  have h3 := call_load_ok env "cash_entries" (h _)
  have h4 := call_load_ok env "item_selection_details" (h _)
  have h5 := call_load_ok env "kitchen_timings" (h _)
  have h6 := call_load_ok env "order_details" (h _)
  have h7 := call_load_ok env "payment_details" (h _)
  unfold closure_records_for
  simp [loadLoop, h1, h2, h3, h4, h5, h6, h7]

/-- C10: for a valid date, if the SFTP listing probe raises, the analysis
falls back to all zeros, the date classifies as a `no_files` closure, and
`process_single_date` returns a `closure_processed` outcome (never an
`error` outcome); when the loader succeeds, the seven placeholder rows are
counted as loaded. -/
theorem claim_C10_probe_failure_closure (env : Env) (cfg : ThresholdConfig)
    (rc : RunConfig) (date : String) (d : Date) (e : String)
    (hd : parseYYYYMMDD date = some d)
    (hprobe : env.list_files date = .error e) :
    analyze_sftp_files env date = zeroAnalysis ∧
    (process_single_date env cfg rc date).status = "closure_processed" ∧
    (process_single_date env cfg rc date).closure_reason = some "no_files" ∧
    ¬ (process_single_date env cfg rc date).status = "error" ∧
    ((∀ t i, env.load_op t i = .ok ()) →
      (process_single_date env cfg rc date).records_loaded = some 7) := by
  have hA : analyze_sftp_files env date = zeroAnalysis := by
    unfold analyze_sftp_files
    rw [hprobe]
    rfl
  have hlikely : is_likely_closure_date cfg date zeroAnalysis
      = (true, "no_files") := rfl
  have hspc : should_process_as_closure cfg date zeroAnalysis
      = .ok (true, "no_files", closure_records_for d "no_files") := by
    unfold should_process_as_closure
    rw [hlikely]
    show (match generate_closure_records date "no_files" with
      | some recs => Except.ok (true, "no_files", recs)
      | none => Except.error "ValueError: time data does not match format Y-m-d")
      = _
    unfold generate_closure_records
    rw [hd]
  have hbody : process_single_date_body env cfg rc date
      = .ok ({ date := date, status := "closure_processed",
               closure_reason := some "no_files",
               records_loaded := some (loadLoop env
                 (closure_records_for d "no_files")).1,
               tables := some (closure_records_for d "no_files").length,
               processing_type := "business_closure" },
          (loadLoop env (closure_records_for d "no_files")).2) := by
    unfold process_single_date_body
    rw [hA, hspc]
  have hout : process_single_date env cfg rc date
      = { date := date, status := "closure_processed",
          closure_reason := some "no_files",
          records_loaded := some (loadLoop env
            (closure_records_for d "no_files")).1,
          tables := some (closure_records_for d "no_files").length,
          processing_type := "business_closure" } := by
    unfold process_single_date
    rw [hbody]
  refine ⟨hA, by rw [hout], by rw [hout],
    by rw [hout]; show ¬ "closure_processed" = "error"; decide, ?_⟩
  intro hload
  rw [hout]
  show some (loadLoop env (closure_records_for d "no_files")).1 = some 7
  rw [loadLoop_closure_all_ok env d "no_files" (fun t => hload t 0)]

def c10env : Env :=
  { list_files := fun _ => .error "connection reset",
    file_info_size := fun _ => .ok 0,
    download_files := fun _ => .ok [],
    transform_file := fun _ _ => .ok none,
    load_op := fun _ _ => .ok (),
    validate := fun _ => .ok () }

theorem claim_C10_probe_failure_closure_witness :
    (process_single_date c10env {} {} "20241225").status = "closure_processed" ∧
    (process_single_date c10env {} {} "20241225").closure_reason
      = some "no_files" ∧
    (process_single_date c10env {} {} "20241225").records_loaded = some 7 := by
  have h := claim_C10_probe_failure_closure c10env {} {} "20241225"
    (Date.mk 2024 12 25) "connection reset" (by decide) rfl
  exact ⟨h.2.1, h.2.2.1, h.2.2.2.2 (fun t i => rfl)⟩

/-! ## C9: load throws twice then succeeds under the loader's 3-attempt retry -/

theorem call_load_two_failures (env : Env) (t : String) (e0 e1 : String)
    (hl0 : env.load_op t 0 = .error e0)
    (hl1 : env.load_op t 1 = .error e1)
    (hl2 : env.load_op t 2 = .ok ()) :
    call_load_dataframe env t = (.ok (some ()), 3) := by
  unfold call_load_dataframe pyRetry
  refine pyRetryGo_succ (env.load_op t) (fun _ => true) 3 2
    (fun i => if i = 0 then e0 else e1) () ?_ (fun i _ => rfl) hl2 (by omega)
    2 0 (by omega) (by omega)
  intro i hi
  match i with
  | 0 => exact hl0
  | 1 => exact hl1

theorem loadLoop_single (env : Env) (t : String) (df : DF)
    (h : call_load_dataframe env t = (.ok (some ()), 3)) :
    loadLoop env [(t, df)] = (df.length, 3) := by
  unfold loadLoop
  rw [h]
  rfl

/-- C9: a date that classifies as a normal business day, downloads files,
transforms them into one table, and whose loader body throws on its first
two invocations and succeeds on the third (the loader's own
`@retry_with_backoff(max_attempts=3)` absorbing the failures), ends with a
`success` outcome and the loader body invoked exactly 3 times in total. -/
theorem claim_C9_load_retry_success (env : Env) (cfg : ThresholdConfig)
    (rc : RunConfig) (date : String) (files : List String) (t : String)
    (df : DF) (e0 e1 : String)
    (hncl : (is_likely_closure_date cfg date (analyze_sftp_files env date)).1
      = false)
    (hdl : env.download_files date = .ok files)
    (hne : files.isEmpty = false)
    (htr : transformLoop env files [] = .ok [(t, df)])
    (hl0 : env.load_op t 0 = .error e0)
    (hl1 : env.load_op t 1 = .error e1)
    (hl2 : env.load_op t 2 = .ok ())
    (hv : env.validate date = .ok ()) :
    process_single_date_body env cfg rc date
      = .ok ({ date := date, status := "success",
               records_loaded := some df.length, tables := some 1,
               processing_type := "normal_business_day" }, 3) ∧
    (process_single_date env cfg rc date).status = "success" := by
  have hcall := call_load_two_failures env t e0 e1 hl0 hl1 hl2
  have hload := loadLoop_single env t df hcall
  have hfalse : should_process_as_closure cfg date (analyze_sftp_files env date)
      = .ok (false, "", []) := by
    unfold should_process_as_closure
    rw [show is_likely_closure_date cfg date (analyze_sftp_files env date)
        = (false, (is_likely_closure_date cfg date
            (analyze_sftp_files env date)).2) from by rw [← hncl]]
  have hbody : process_single_date_body env cfg rc date
      = .ok ({ date := date, status := "success",
               records_loaded := some df.length, tables := some 1,
               processing_type := "normal_business_day" }, 3) := by
    unfold process_single_date_body
    rw [hfalse]
    cases hvd : rc.validate_data <;>
      simp [hdl, hne, htr, hvd, hv, hload]
  refine ⟨hbody, ?_⟩
  unfold process_single_date
  rw [hbody]

def c9env : Env :=
  { list_files := fun _ => .ok ["a", "b", "c", "d"],
    file_info_size := fun _ => .ok 600,
    download_files := fun _ => .ok ["OrderDetails.csv"],
    transform_file := fun _ _ => .ok (some [[("order_id", PyVal.s "x")]]),
    load_op := fun _ i => if i ≤ 1 then .error "transient" else .ok (),
    validate := fun _ => .ok () }

theorem claim_C9_load_retry_success_witness :
    process_single_date_body c9env {} {} "20240404"
      = .ok ({ date := "20240404", status := "success",
               records_loaded := some 1, tables := some 1,
               processing_type := "normal_business_day" }, 3) ∧
    (process_single_date c9env {} {} "20240404").status = "success" := by
  have h := claim_C9_load_retry_success c9env {} {} "20240404"
    ["OrderDetails.csv"] "order_details" [[("order_id", PyVal.s "x")]]
    "transient" "transient"
    rfl rfl rfl rfl rfl rfl rfl rfl
  exact ⟨h.1, h.2⟩

end Toast
